import Mathlib

/-!
Shallow embedding of `src/amin_codes.py` (class `CDSSStatisticalAnalysis`):
a Monte Carlo simulation of diagnostic accuracy together with descriptive
statistics and a correlation-based sensitivity analysis.

Numeric values are embedded as exact rationals (every IEEE-754 double is a
rational); the places where a square root is taken (`np.std`,
`scipy.stats.sem`, Pearson correlation) live in `ℝ`.  `Option` models the
IEEE NaN / undefined outcomes of numpy: `none` is the NaN produced by
reductions over empty data, by `ddof`-corrected variance of a single value,
or by a zero-variance correlation.  A separate explicit binary64 rounding
model (`fl64`) is used for the claims that are about bit-exact
floating-point results.
-/

/-- One iteration's draws from the global random stream (source lines
28-31): `data_completeness ~ U[0.6,1]`, `symptom_clarity ~ {1..5}`,
`workflow_variation ~ {0..7}`, `response_time ~ Exp(scale 2)`.  The code
owns no seed and consumes the process-global numpy generator; that stream
is modelled abstractly as a function from draw index to drawn values,
together with a cursor giving the current stream position. -/
structure Draw where
  dc : ℚ
  sc : ℤ
  wv : ℤ
  rt : ℚ
deriving DecidableEq

/-- Response-time penalty term `min(response_time/10, 0.1)` (line 38). -/
def penalty (rt : ℚ) : ℚ := min (rt / 10) (1 / 10)

/-- Accuracy model (lines 34-38), exact-arithmetic semantics:
`0.90 * dc * (sc/5) * (1 - wv*0.01) * (1 - min(rt/10, 0.1))`. -/
def accuracy (dc : ℚ) (sc wv : ℤ) (rt : ℚ) : ℚ :=
  9 / 10 * dc * ((sc : ℚ) / 5) * (1 - (wv : ℚ) * (1 / 100)) * (1 - penalty rt)

/-- Per-trial accuracy as stored in the result lists: `accuracy * 100`
(line 41). -/
def accuracy_pct (dc : ℚ) (sc wv : ℤ) (rt : ℚ) : ℚ :=
  accuracy dc sc wv rt * 100

/-! ### Bit-exact binary64 model

The claims C5/C6 assert exact floating-point values, so the accuracy
formula is additionally modelled at the IEEE-754 binary64 level: every
intermediate result is rounded to 53 significant bits, round to nearest,
ties to even.  Subnormals and overflow are far outside the magnitudes of
interest and are not modelled. -/

/-- Round a rational to the nearest integer, ties to even. -/
def rne (q : ℚ) : ℤ :=
  if q - ⌊q⌋ < 1 / 2 then ⌊q⌋
  else if 1 / 2 < q - ⌊q⌋ then ⌊q⌋ + 1
  else if ⌊q⌋ % 2 = 0 then ⌊q⌋ else ⌊q⌋ + 1

/-- Round a rational to the nearest binary64 value (53-bit significand,
round to nearest, ties to even; normal range only). -/
def fl64 (q : ℚ) : ℚ :=
  if q = 0 then 0
  else
    (rne (q * 2 ^ ((52 : ℤ) - Int.log 2 |q|)) : ℚ) * 2 ^ (Int.log 2 |q| - (52 : ℤ))

/-- Binary64 product: exact product, then one rounding. -/
def fmul (a b : ℚ) : ℚ := fl64 (a * b)

/-- Binary64 quotient: exact quotient, then one rounding. -/
def fdiv (a b : ℚ) : ℚ := fl64 (a / b)

/-- Binary64 difference: exact difference, then one rounding. -/
def fsub (a b : ℚ) : ℚ := fl64 (a - b)

/-- Bit-level binary64 evaluation of the accuracy computation of lines
34-41, including the final `* 100` of line 41.  The literals `0.9`,
`0.01` and `0.1` denote the binary64 values nearest to those decimals;
`symptom_clarity / 5` and `workflow_variation * 0.01` are int-float
operations whose int operand converts exactly; Python's `min` returns one
of its arguments unchanged. -/
def accuracyF_pct (dc : ℚ) (sc wv : ℤ) (rt : ℚ) : ℚ :=
  fmul
    (fmul
      (fmul
        (fmul (fmul (fl64 (9 / 10)) dc) (fdiv (sc : ℚ) 5))
        (fsub 1 (fmul (wv : ℚ) (fl64 (1 / 100)))))
      (fsub 1 (min (fdiv rt 10) (fl64 (1 / 10)))))
    100

/-! ### Statistics (`calculate_statistics`, lines 49-61)

numpy reductions over empty data, and `ddof`-corrected reductions over a
single value, produce NaN (with a runtime warning); NaN is modelled as
`none`. -/

/-- `np.mean` (line 55): arithmetic mean; NaN on an empty array. -/
def npMean (l : List ℚ) : Option ℚ :=
  if l = [] then none else some (l.sum / l.length)

/-- Population variance, the square of `np.std` (line 56, default
`ddof=0`): mean squared deviation; NaN on an empty array. -/
def npVar (l : List ℚ) : Option ℚ :=
  if l = [] then none
  else some ((l.map fun x => (x - l.sum / l.length) ^ 2).sum / l.length)

/-- `np.std` (line 56): square root of the population variance. -/
noncomputable def npStd (l : List ℚ) : Option ℝ :=
  Option.map (fun v : ℚ => Real.sqrt (v : ℝ)) (npVar l)

/-- Sample variance (`ddof=1`), used inside `scipy.stats.sem`; NaN for
fewer than two values (0/0). -/
def sampleVar (l : List ℚ) : Option ℚ :=
  if l.length ≤ 1 then none
  else some ((l.map fun x => (x - l.sum / l.length) ^ 2).sum / ((l.length : ℚ) - 1))

/-- `scipy.stats.sem` (line 59): standard error of the mean,
`np.std(a, ddof=1) / sqrt(len(a))` (scipy's default is `ddof=1`, the
sample standard deviation, not the population one). -/
noncomputable def sem (l : List ℚ) : Option ℝ :=
  Option.map (fun v : ℚ => Real.sqrt (v : ℝ) / Real.sqrt (l.length : ℝ)) (sampleVar l)

/-- `scipy.stats.norm.interval(0.95, loc, scale)` (lines 57-59) returns
`(loc - z*scale, loc + z*scale)` where `z = Φ⁻¹(0.975) ≈ 1.959964` is the
two-sided 97.5th-percentile point of the standard normal distribution.
The quantile is computed numerically by scipy; it is modelled as the
explicit parameter `z`. -/
def norm_interval (z loc scale : ℝ) : ℝ × ℝ := (loc - z * scale, loc + z * scale)

/-- The numeric z used in closed instances: the claim's stated
approximation `1.959964` of `Φ⁻¹(0.975)`.  Every statement below that
uses it holds for any positive value of z. -/
noncomputable def z975 : ℝ := 1959964 / 1000000

/-- Insertion into an ascending-sorted list. -/
def insertAsc (x : ℚ) : List ℚ → List ℚ
  | [] => [x]
  | y :: ys => if x ≤ y then x :: y :: ys else y :: insertAsc x ys

/-- Ascending sort, as performed internally by `np.percentile`. -/
def sortAsc (l : List ℚ) : List ℚ := l.foldr insertAsc []

/-- `np.percentile(l, q)` (line 60), default linear-interpolation method:
sort ascending, take the virtual rank `h = q/100 * (n - 1)`, and
interpolate linearly between the two bracketing order statistics.  On an
empty array numpy fails (a generic index error in current versions, never
a defined value); modelled as `none`. -/
def npPercentile (q : ℚ) (l : List ℚ) : Option ℚ :=
  if l = [] then none
  else
    let s := sortAsc l
    let h := q / 100 * ((l.length : ℚ) - 1)
    let i := ⌊h⌋.toNat
    let lo := s.getD i 0
    let hi := s.getD (i + 1) lo
    some (lo + (h - (i : ℚ)) * (hi - lo))

/-- The dictionary literal returned by `calculate_statistics`
(lines 54-61). -/
structure StatsReport where
  mean_accuracy : Option ℚ
  std_accuracy : Option ℝ
  ci_95 : Option (ℝ × ℝ)
  percentile_99_response : Option ℚ

/-- `calculate_statistics` (lines 49-61), applied to the accumulated
accuracy and response-time lists.  The scale fed to
`stats.norm.interval` is `stats.sem(accuracy)`; a NaN `loc` or `scale`
yields a NaN interval. -/
noncomputable def calculate_statistics (z : ℝ) (acc rt : List ℚ) : StatsReport where
  mean_accuracy := npMean acc
  std_accuracy := npStd acc
  ci_95 :=
    match npMean acc, sem acc with
    | some m, some s => some (norm_interval z (m : ℝ) s)
    | _, _ => none
  percentile_99_response := npPercentile 99 rt

/-! ### Sensitivity analysis (`sensitivity_analysis`, lines 63-82) -/

/-- Covariance numerator pattern of `np.corrcoef`: mean products of
deviations (the `ddof` convention cancels from the correlation
quotient, so the population form is used). -/
def npCov (x y : List ℚ) : Option ℚ :=
  match npMean x, npMean y with
  | some mx, some my =>
      some (((x.zip y).map fun p => (p.1 - mx) * (p.2 - my)).sum / x.length)
  | _, _ => none

/-- Pearson correlation `np.corrcoef(x, y)[0,1]` (lines 69-76).  When
either argument has zero variance the quotient is 0/0, i.e. NaN
(numpy emits an invalid-value warning); modelled as `none`. -/
noncomputable def ncorr (x y : List ℚ) : Option ℝ :=
  match npVar x, npVar y with
  | some vx, some vy =>
      if vx = 0 ∨ vy = 0 then none
      else Option.map
        (fun c : ℚ => (c : ℝ) / (Real.sqrt (vx : ℝ) * Real.sqrt (vy : ℝ)))
        (npCov x y)
  | _, _ => none

/-- The sensitivity dictionary returned by `sensitivity_analysis`
(lines 68-82): one contribution per input factor. -/
structure SensReport where
  data_completeness : Option ℝ
  symptom_clarity : Option ℝ
  workflow_variation : Option ℝ
  response_time : Option ℝ

open Classical in
/-- `sensitivity_analysis` (lines 63-82): absolute correlations
normalized by their sum, times 100.  A NaN correlation propagates
through the Python `sum(...)` into every quotient; an exactly zero sum
gives 0/0, i.e. NaN, in every quotient.  NaN is modelled as `none`. -/
noncomputable def sensitivity_analysis
    (dcL scL wvL rtL accL : List ℚ) : SensReport :=
  let r1 := ncorr dcL accL
  let r2 := ncorr scL accL
  let r3 := ncorr wvL accL
  let r4 := ncorr rtL accL
  let total : Option ℝ :=
    match r1, r2, r3, r4 with
    | some a, some b, some c, some d => some (|a| + |b| + |c| + |d|)
    | _, _, _, _ => none
  let contrib : Option ℝ → Option ℝ := fun r =>
    match r, total with
    | some a, some t => if t = 0 then none else some (|a| / t * 100)
    | _, _ => none
  ⟨contrib r1, contrib r2, contrib r3, contrib r4⟩

/-! ### Simulation (`__init__` lines 11-19, `simulate_diagnostic_accuracy`
lines 21-47) -/

/-- The mutable state of a `CDSSStatisticalAnalysis` object: the trial
count and the five ever-growing result lists of the `results` dict
(lines 12-19).  `symptom_clarity` and `workflow_variation` hold integer
draws; they are stored as rationals exactly. -/
structure SimState where
  n_iterations : ℕ
  accuracy : List ℚ
  response_time : List ℚ
  data_completeness : List ℚ
  symptom_clarity : List ℚ
  workflow_variation : List ℚ
deriving DecidableEq

/-- `CDSSStatisticalAnalysis()` (lines 11-19): 10000 iterations, all
five result lists empty. -/
def CDSS_init : SimState :=
  { n_iterations := 10000
    accuracy := []
    response_time := []
    data_completeness := []
    symptom_clarity := []
    workflow_variation := [] }

/-- `simulate_diagnostic_accuracy` (lines 21-47): runs
`n_iterations` trials, each consuming the next position of the global
random stream `g`, appending to every result list; returns the updated
state and the advanced stream cursor.  The method takes no seed: `g` and
the cursor model the process-global numpy generator the code reads. -/
def simulate_diagnostic_accuracy (g : ℕ → Draw) (cursor : ℕ) (s : SimState) :
    SimState × ℕ :=
  (⟨s.n_iterations,
    s.accuracy ++ List.ofFn fun i : Fin s.n_iterations =>
      accuracy_pct (g (cursor + i)).dc (g (cursor + i)).sc
        (g (cursor + i)).wv (g (cursor + i)).rt,
    s.response_time ++ List.ofFn fun i : Fin s.n_iterations => (g (cursor + i)).rt,
    s.data_completeness ++ List.ofFn fun i : Fin s.n_iterations => (g (cursor + i)).dc,
    s.symptom_clarity ++ List.ofFn fun i : Fin s.n_iterations =>
      ((g (cursor + i)).sc : ℚ),
    s.workflow_variation ++ List.ofFn fun i : Fin s.n_iterations =>
      ((g (cursor + i)).wv : ℚ)⟩,
   cursor + s.n_iterations)

/-- `m` successive `simulate_diagnostic_accuracy()` calls on one analysis
object, starting from construction, threading the global stream cursor. -/
def runsFrom (g : ℕ → Draw) : ℕ → SimState × ℕ
  | 0 => (CDSS_init, 0)
  | m + 1 => simulate_diagnostic_accuracy g (runsFrom g m).2 (runsFrom g m).1

/-- A concrete valuation of the global random stream, used to exhibit
two back-to-back runs: the first 10000 draws see
`dc = 0.8, sc = 5, wv = 0, rt = 0`, every later draw sees `dc = 1`. -/
def gdemo : ℕ → Draw := fun n =>
  if n < 10000 then ⟨4 / 5, 5, 0, 0⟩ else ⟨1, 5, 0, 0⟩

/-! ### Evaluation helpers for the binary64 model -/

/-- A base-2 logarithm is pinned down by the two bracketing powers. -/
lemma log2_eq {q : ℚ} {e : ℤ} (h0 : 0 < q) (h1 : (2 : ℚ) ^ e ≤ q)
    (h2 : q < (2 : ℚ) ^ (e + 1)) : Int.log 2 q = e := by
  have ha : e ≤ Int.log 2 q := by
    rw [← Int.zpow_le_iff_le_log one_lt_two h0]
    exact_mod_cast h1
  have hb : Int.log 2 q < e + 1 := by
    rw [← Int.lt_zpow_iff_log_lt one_lt_two h0]
    exact_mod_cast h2
  omega

/-- Nearest-integer rounding at a non-tie point. -/
lemma rne_eq {q : ℚ} {m : ℤ} (h : |q - (m : ℚ)| < 1 / 2) : rne q = m := by
  rw [abs_lt] at h
  obtain ⟨hl, hr⟩ := h
  unfold rne
  rcases le_or_lt (m : ℚ) q with hc | hc
  · have hf : ⌊q⌋ = m := Int.floor_eq_iff.mpr ⟨hc, by linarith⟩
    rw [hf, if_pos (by linarith)]
  · have hf : ⌊q⌋ = m - 1 := by
      apply Int.floor_eq_iff.mpr
      constructor
      · push_cast; linarith
      · push_cast; linarith
    rw [hf]
    rw [if_neg (by push_cast; linarith), if_pos (by push_cast; linarith)]
    omega

/-- Nearest-integer rounding at a tie, even case. -/
lemma rne_tie {q : ℚ} {m : ℤ} (hq : q - (m : ℚ) = 1 / 2) (he : m % 2 = 0) :
    rne q = m := by
  have hf : ⌊q⌋ = m := Int.floor_eq_iff.mpr ⟨by linarith, by linarith⟩
  unfold rne
  rw [hf, hq, if_neg (lt_irrefl _), if_neg (lt_irrefl _), if_pos he]

/-- Evaluate `fl64` at a positive rational whose rounded significand is
`m` when scaled by `2 ^ k` (so the binade is `[2 ^ (52 - k), 2 ^ (53 - k))`);
non-tie case. -/
lemma fl64_eval {q : ℚ} (k : ℕ) (m : ℤ)
    (h1 : 2 ^ 52 ≤ q * 2 ^ k) (h2 : q * 2 ^ k < 2 ^ 53)
    (hm : |q * 2 ^ k - (m : ℚ)| < 1 / 2) :
    fl64 q = (m : ℚ) / 2 ^ k := by
  have hk : (0 : ℚ) < 2 ^ k := by positivity
  have h0 : 0 < q := by nlinarith [lt_of_lt_of_le (by norm_num : (0:ℚ) < 2 ^ 52) h1]
  have habs : |q| = q := abs_of_pos h0
  have hzk : ((2 : ℚ) ^ (k : ℤ)) = 2 ^ k := zpow_natCast 2 k
  have hlog : Int.log 2 |q| = 52 - k := by
    rw [habs]
    apply log2_eq h0
    · have : (2 : ℚ) ^ ((52 : ℤ) - k) = 2 ^ 52 / 2 ^ k := by
        rw [zpow_sub₀ (two_ne_zero), hzk]; norm_num
      rw [this, div_le_iff₀ hk]
      exact_mod_cast h1
    · have : (2 : ℚ) ^ ((52 : ℤ) - k + 1) = 2 ^ 53 / 2 ^ k := by
        rw [show (52 : ℤ) - k + 1 = 53 - k by ring, zpow_sub₀ (two_ne_zero), hzk]
        norm_num
      rw [this, lt_div_iff₀ hk]
      exact_mod_cast h2
  have hexp : (52 : ℤ) - (52 - (k : ℤ)) = k := by ring
  have hexp2 : (52 : ℤ) - (k : ℤ) - 52 = -(k : ℤ) := by ring
  rw [fl64, if_neg (ne_of_gt h0), hlog, hexp, hexp2, hzk,
    rne_eq hm, zpow_neg, hzk, div_eq_mul_inv]

/-- Evaluate `fl64` at a positive rational whose scaled value is an exact
tie with even candidate `m`. -/
lemma fl64_eval_tie {q : ℚ} (k : ℕ) (m : ℤ)
    (h1 : 2 ^ 52 ≤ q * 2 ^ k) (h2 : q * 2 ^ k < 2 ^ 53)
    (hm : q * 2 ^ k - (m : ℚ) = 1 / 2) (he : m % 2 = 0) :
    fl64 q = (m : ℚ) / 2 ^ k := by
  have hk : (0 : ℚ) < 2 ^ k := by positivity
  have h0 : 0 < q := by nlinarith [lt_of_lt_of_le (by norm_num : (0:ℚ) < 2 ^ 52) h1]
  have habs : |q| = q := abs_of_pos h0
  have hzk : ((2 : ℚ) ^ (k : ℤ)) = 2 ^ k := zpow_natCast 2 k
  have hlog : Int.log 2 |q| = 52 - k := by
    rw [habs]
    apply log2_eq h0
    · have : (2 : ℚ) ^ ((52 : ℤ) - k) = 2 ^ 52 / 2 ^ k := by
        rw [zpow_sub₀ (two_ne_zero), hzk]; norm_num
      rw [this, div_le_iff₀ hk]
      exact_mod_cast h1
    · have : (2 : ℚ) ^ ((52 : ℤ) - k + 1) = 2 ^ 53 / 2 ^ k := by
        rw [show (52 : ℤ) - k + 1 = 53 - k by ring, zpow_sub₀ (two_ne_zero), hzk]
        norm_num
      rw [this, lt_div_iff₀ hk]
      exact_mod_cast h2
  have hexp : (52 : ℤ) - (52 - (k : ℤ)) = k := by ring
  have hexp2 : (52 : ℤ) - (k : ℤ) - 52 = -(k : ℤ) := by ring
  rw [fl64, if_neg (ne_of_gt h0), hlog, hexp, hexp2, hzk,
    rne_tie hm he, zpow_neg, hzk, div_eq_mul_inv]

/-- Rounding nothing: `fl64 0 = 0`. -/
lemma fl64_zero : fl64 0 = 0 := by simp [fl64]

/-- The literal `0.9` as a binary64 value. -/
lemma fl64_09 : fl64 (9 / 10) = 8106479329266893 / 2 ^ 53 :=
  fl64_eval 53 8106479329266893 (by norm_num) (by norm_num)
    (by rw [abs_lt]; constructor <;> norm_num)

/-- The float `0.8` (the converted claim input) as a binary64 value. -/
lemma fl64_08 : fl64 (4 / 5) = 7205759403792794 / 2 ^ 53 :=
  fl64_eval 53 7205759403792794 (by norm_num) (by norm_num)
    (by rw [abs_lt]; constructor <;> norm_num)

/-- The float `0.6` (the converted claim input) as a binary64 value. -/
lemma fl64_06 : fl64 (3 / 5) = 5404319552844595 / 2 ^ 53 :=
  fl64_eval 53 5404319552844595 (by norm_num) (by norm_num)
    (by rw [abs_lt]; constructor <;> norm_num)

/-- The literal `0.01` as a binary64 value. -/
lemma fl64_001 : fl64 (1 / 100) = 5764607523034235 / 2 ^ 59 :=
  fl64_eval 59 5764607523034235 (by norm_num) (by norm_num)
    (by rw [abs_lt]; constructor <;> norm_num)

/-- The literal `0.1` as a binary64 value. -/
lemma fl64_01 : fl64 (1 / 10) = 7205759403792794 / 2 ^ 56 :=
  fl64_eval 56 7205759403792794 (by norm_num) (by norm_num)
    (by rw [abs_lt]; constructor <;> norm_num)

/-- One is representable. -/
lemma fl64_one : fl64 1 = 1 := by
  have h := fl64_eval (q := 1) 52 4503599627370496 (by norm_num) (by norm_num)
    (by rw [abs_lt]; constructor <;> norm_num)
  rw [h]; norm_num

/-- Two is representable. -/
lemma fl64_two : fl64 2 = 2 := by
  have h := fl64_eval (q := 2) 51 4503599627370496 (by norm_num) (by norm_num)
    (by rw [abs_lt]; constructor <;> norm_num)
  rw [h]; norm_num

/-- Binary64 evaluation of the C5 input: the whole product chain at
`dc = float 0.8, sc = 5, wv = 0, rt = 0`.  The first product
`0.9 * 0.8` already rounds up by one ulp, and the final `* 100` rounds
up again, giving `72 + 2⁻⁴⁶`. -/
lemma accF_c5_val : accuracyF_pct (fl64 (4 / 5)) 5 0 0 = 5066549580791809 / 2 ^ 46 := by
  have e1 : fdiv ((5 : ℤ) : ℚ) 5 = 1 := by
    rw [fdiv, show (((5 : ℤ) : ℚ) / 5) = 1 by norm_num, fl64_one]
  have e2 : fmul ((0 : ℤ) : ℚ) (fl64 (1 / 100)) = 0 := by
    rw [fmul, show (((0 : ℤ) : ℚ) * fl64 (1 / 100)) = 0 by norm_num, fl64_zero]
  have e3 : fsub 1 0 = 1 := by rw [fsub, sub_zero, fl64_one]
  have e4 : fdiv (0 : ℚ) 10 = 0 := by rw [fdiv, zero_div, fl64_zero]
  have e5 : min (0 : ℚ) (fl64 (1 / 10)) = 0 := by rw [fl64_01]; norm_num
  have e6 : fmul (fl64 (9 / 10)) (fl64 (4 / 5)) = 6485183463413515 / 2 ^ 53 := by
    rw [fl64_09, fl64_08, fmul]
    exact fl64_eval 53 6485183463413515 (by norm_num) (by norm_num)
      (by rw [abs_lt]; constructor <;> norm_num)
  have e7 : fmul (6485183463413515 / 2 ^ 53 : ℚ) 1 = 6485183463413515 / 2 ^ 53 := by
    rw [fmul, mul_one]
    exact fl64_eval 53 6485183463413515 (by norm_num) (by norm_num)
      (by rw [abs_lt]; constructor <;> norm_num)
  have e8 : fmul (6485183463413515 / 2 ^ 53 : ℚ) 100 = 5066549580791809 / 2 ^ 46 := by
    rw [fmul]
    exact fl64_eval 46 5066549580791809 (by norm_num) (by norm_num)
      (by rw [abs_lt]; constructor <;> norm_num)
  rw [accuracyF_pct]
  rw [e6, e1, e7, e2, e3, e7, e4, e5, e3, e7, e8]

/-- Binary64 evaluation of the C6 input: the whole product chain at
`dc = float 0.6, sc = 1, wv = 7, rt = 20`. -/
lemma accF_c6_val : accuracyF_pct (fl64 (3 / 5)) 1 7 20 = 1272210599736823 / 2 ^ 47 := by
  have e1 : fmul (fl64 (9 / 10)) (fl64 (3 / 5)) = 4863887597560136 / 2 ^ 53 := by
    rw [fl64_09, fl64_06, fmul]
    exact fl64_eval 53 4863887597560136 (by norm_num) (by norm_num)
      (by rw [abs_lt]; constructor <;> norm_num)
  have e2 : fdiv ((1 : ℤ) : ℚ) 5 = 7205759403792794 / 2 ^ 55 := by
    rw [fdiv, show (((1 : ℤ) : ℚ) / 5) = 1 / 5 by norm_num]
    exact fl64_eval 55 7205759403792794 (by norm_num) (by norm_num)
      (by rw [abs_lt]; constructor <;> norm_num)
  have e3 : fmul (4863887597560136 / 2 ^ 53 : ℚ) (7205759403792794 / 2 ^ 55) =
      7782220156096218 / 2 ^ 56 := by
    rw [fmul]
    exact fl64_eval 56 7782220156096218 (by norm_num) (by norm_num)
      (by rw [abs_lt]; constructor <;> norm_num)
  have e4 : fmul ((7 : ℤ) : ℚ) (fl64 (1 / 100)) = 5044031582654956 / 2 ^ 56 := by
    rw [fl64_001, fmul, show (((7 : ℤ) : ℚ) * (5764607523034235 / 2 ^ 59)) =
      40352252661239645 / 2 ^ 59 by norm_num]
    exact fl64_eval 56 5044031582654956 (by norm_num) (by norm_num)
      (by rw [abs_lt]; constructor <;> norm_num)
  have e5 : fsub 1 (5044031582654956 / 2 ^ 56 : ℚ) = 8376695306909122 / 2 ^ 53 := by
    rw [fsub]
    exact fl64_eval_tie 53 8376695306909122 (by norm_num) (by norm_num)
      (by norm_num) (by norm_num)
  have e6 : fmul (7782220156096218 / 2 ^ 56 : ℚ) (8376695306909122 / 2 ^ 53) =
      7237464745169482 / 2 ^ 56 := by
    rw [fmul]
    exact fl64_eval 56 7237464745169482 (by norm_num) (by norm_num)
      (by rw [abs_lt]; constructor <;> norm_num)
  have e7 : fdiv (20 : ℚ) 10 = 2 := by
    rw [fdiv, show ((20 : ℚ) / 10) = 2 by norm_num, fl64_two]
  have e8 : min (2 : ℚ) (fl64 (1 / 10)) = fl64 (1 / 10) := by rw [fl64_01]; norm_num
  have e9 : fsub 1 (fl64 (1 / 10)) = 8106479329266893 / 2 ^ 53 := by
    rw [fl64_01, fsub]
    exact fl64_eval 53 8106479329266893 (by norm_num) (by norm_num)
      (by rw [abs_lt]; constructor <;> norm_num)
  have e10 : fmul (7237464745169482 / 2 ^ 56 : ℚ) (8106479329266893 / 2 ^ 53) =
      6513718270652534 / 2 ^ 56 := by
    rw [fmul]
    exact fl64_eval 56 6513718270652534 (by norm_num) (by norm_num)
      (by rw [abs_lt]; constructor <;> norm_num)
  have e11 : fmul (6513718270652534 / 2 ^ 56 : ℚ) 100 = 5088842398947292 / 2 ^ 49 := by
    rw [fmul]
    exact fl64_eval 49 5088842398947292 (by norm_num) (by norm_num)
      (by rw [abs_lt]; constructor <;> norm_num)
  rw [accuracyF_pct]
  rw [e1, e2, e3, e4, e5, e6, e7, e8, e9, e10, e11]
  norm_num


/-! ### Claim theorems -/

/-- C5, counterexample.  The claim asserts the computed accuracy at
`dataCompleteness = 0.8, symptomClarity = 5, workflowVariation = 0,
responseTime = 0` is exactly 72.0 with no floating-point deviation.  In
the binary64 arithmetic the code actually performs, the stored value is
`72 + 2⁻⁴⁶ = 72.00000000000001`, not 72: `0.9 * 0.8` already rounds one
ulp above `0.72`. -/
theorem c5_counterexample : accuracyF_pct (fl64 (4 / 5)) 5 0 0 ≠ 72 := by
  rw [accF_c5_val]; norm_num

/-- C5, amended.  At `dc = 0.8, sc = 5, wv = 0, rt = 0` the accuracy is
exactly `90 * 0.8 = 72.0` in exact real arithmetic; the binary64
evaluation the code performs yields `72 + 2⁻⁴⁶ ≈ 72.00000000000001`, a
deviation of one ulp introduced by the rounding of `0.9 * 0.8` and of the
final `* 100`. -/
theorem c5_accuracy_value :
    accuracy_pct (4 / 5) 5 0 0 = 72 ∧
    accuracyF_pct (fl64 (4 / 5)) 5 0 0 = 72 + 1 / 2 ^ 46 := by
  constructor
  · norm_num [accuracy_pct, accuracy, penalty, min_def]
  · rw [accF_c5_val]; norm_num

/-- C6, counterexample.  The claim asserts the accuracy at
`dataCompleteness = 0.6, symptomClarity = 1, workflowVariation = 7,
responseTime = 20` equals `90 * 0.6 * 0.2 * 0.93 * 0.9 = 9.0468`; but that
product is `9.0396`, and neither the exact-arithmetic accuracy nor the
binary64 value the code computes equals `9.0468`. -/
theorem c6_counterexample :
    accuracy_pct (3 / 5) 1 7 20 ≠ 90468 / 10000 ∧
    accuracyF_pct (fl64 (3 / 5)) 1 7 20 ≠ 90468 / 10000 := by
  constructor
  · norm_num [accuracy_pct, accuracy, penalty, min_def]
  · rw [accF_c6_val]; norm_num

/-- C6, amended.  At `dc = 0.6, sc = 1, wv = 7, rt = 20` the
response-time penalty is clamped to 0.1 (`20/10 = 2 > 0.1`), and the
accuracy is `90 * 0.6 * 0.2 * 0.93 * 0.9 = 9.0396` in exact real
arithmetic (the spec's figure 9.0468 is a miscalculation of this
product); the binary64 value the code computes is
`1272210599736823 * 2⁻⁴⁷ = 9.0396 - 2.4e-15`. -/
theorem c6_accuracy_value :
    penalty 20 = 1 / 10 ∧
    accuracy_pct (3 / 5) 1 7 20 = 22599 / 2500 ∧
    accuracyF_pct (fl64 (3 / 5)) 1 7 20 = 1272210599736823 / 2 ^ 47 := by
  refine ⟨by norm_num [penalty, min_def], ?_, accF_c6_val⟩
  norm_num [accuracy_pct, accuracy, penalty, min_def]

/-- C8.  For every legally-drawn parameter sample (`dc ∈ [0.6, 1]`,
`sc ∈ {1..5}`, `wv ∈ {0..7}`, `rt ≥ 0`) the stored accuracy lies in
`[9, 90]` (indeed in `[9.0396, 90]`), and the model output is the bare
product of the base rate and the four factors — the only clamp is the
`min` inside the response-time penalty term. -/
theorem c8_range (dc rt : ℚ) (sc wv : ℤ)
    (h1 : 3 / 5 ≤ dc) (h2 : dc ≤ 1) (h3 : 1 ≤ sc) (h4 : sc ≤ 5)
    (h5 : 0 ≤ wv) (h6 : wv ≤ 7) (h7 : 0 ≤ rt) :
    9 ≤ accuracy_pct dc sc wv rt ∧ accuracy_pct dc sc wv rt ≤ 90 ∧
    accuracy_pct dc sc wv rt =
      90 * dc * ((sc : ℚ) / 5) * (1 - (wv : ℚ) / 100) * (1 - min (rt / 10) (1 / 10)) := by
  have hsc1 : (1 : ℚ) ≤ (sc : ℚ) := by exact_mod_cast h3
  have hsc5 : (sc : ℚ) ≤ 5 := by exact_mod_cast h4
  have hwv0 : (0 : ℚ) ≤ (wv : ℚ) := by exact_mod_cast h5
  have hwv7 : (wv : ℚ) ≤ 7 := by exact_mod_cast h6
  have hp0 : 0 ≤ penalty rt :=
    le_min (div_nonneg h7 (by norm_num)) (by norm_num)
  have hp1 : penalty rt ≤ 1 / 10 := min_le_right _ _
  have hb1 : 1 / 5 ≤ (sc : ℚ) / 5 := by linarith
  have hb2 : (sc : ℚ) / 5 ≤ 1 := by linarith
  have hc1 : 93 / 100 ≤ 1 - (wv : ℚ) * (1 / 100) := by linarith
  have hc2 : 1 - (wv : ℚ) * (1 / 100) ≤ 1 := by linarith
  have hd1 : 9 / 10 ≤ 1 - penalty rt := by linarith
  have hd2 : 1 - penalty rt ≤ 1 := by linarith
  have p1l : 3 / 5 * (1 / 5) ≤ dc * ((sc : ℚ) / 5) :=
    mul_le_mul h1 hb1 (by norm_num) (by linarith)
  have p1u : dc * ((sc : ℚ) / 5) ≤ 1 := by
    have := mul_le_mul h2 hb2 (by linarith : (0:ℚ) ≤ (sc : ℚ) / 5) (by norm_num : (0:ℚ) ≤ 1)
    linarith
  have p2l : 3 / 5 * (1 / 5) * (93 / 100) ≤ dc * ((sc : ℚ) / 5) * (1 - (wv : ℚ) * (1 / 100)) :=
    mul_le_mul p1l hc1 (by norm_num) (by nlinarith)
  have p2u : dc * ((sc : ℚ) / 5) * (1 - (wv : ℚ) * (1 / 100)) ≤ 1 := by
    have := mul_le_mul p1u hc2 (by linarith : (0:ℚ) ≤ 1 - (wv : ℚ) * (1 / 100)) (by norm_num : (0:ℚ) ≤ 1)
    linarith
  have p3l : 3 / 5 * (1 / 5) * (93 / 100) * (9 / 10) ≤
      dc * ((sc : ℚ) / 5) * (1 - (wv : ℚ) * (1 / 100)) * (1 - penalty rt) :=
    mul_le_mul p2l hd1 (by norm_num) (by nlinarith)
  have p3u : dc * ((sc : ℚ) / 5) * (1 - (wv : ℚ) * (1 / 100)) * (1 - penalty rt) ≤ 1 := by
    have := mul_le_mul p2u hd2 (by linarith : (0:ℚ) ≤ 1 - penalty rt) (by norm_num : (0:ℚ) ≤ 1)
    linarith
  refine ⟨?_, ?_, ?_⟩
  · rw [accuracy_pct, accuracy]; nlinarith
  · rw [accuracy_pct, accuracy]; nlinarith
  · rw [accuracy_pct, accuracy, penalty]; ring

/-- C8, witness: the bounds, instantiated at the concrete sample
`dc = 0.8, sc = 5, wv = 0, rt = 0`. -/
theorem c8_range_witness :
    9 ≤ accuracy_pct (4 / 5) 5 0 0 ∧ accuracy_pct (4 / 5) 5 0 0 ≤ 90 ∧
    accuracy_pct (4 / 5) 5 0 0 =
      90 * (4 / 5) * (((5 : ℤ) : ℚ) / 5) * (1 - ((0 : ℤ) : ℚ) / 100) *
        (1 - min ((0 : ℚ) / 10) (1 / 10)) :=
  c8_range (4 / 5) 0 5 0 (by norm_num) (by norm_num) (by norm_num)
    (by norm_num) (by norm_num) (by norm_num) (by norm_num)

/-- C9.  The 99th-percentile response time reported by
`calculate_statistics` is the linear-interpolation percentile; on the
response-time values `[1, ..., 10]` the virtual rank is
`0.99 * 9 = 8.91`, which interpolates between the 9th and 10th sorted
values to `9.91`, independently of the accuracy data and of z. -/
theorem c9_percentile (z : ℝ) (acc : List ℚ) :
    (calculate_statistics z acc [1, 2, 3, 4, 5, 6, 7, 8, 9, 10]).percentile_99_response =
      some (991 / 100) := by
  show npPercentile 99 [1, 2, 3, 4, 5, 6, 7, 8, 9, 10] = some (991 / 100)
  rw [npPercentile, if_neg (by simp)]
  norm_num [sortAsc, insertAsc]
  norm_num [show ((99 : ℚ) / 100 * (10 - 1)) = 891 / 100 by norm_num,
    show ⌊(891 / 100 : ℚ)⌋ = 8 by norm_num [Int.floor_eq_iff],
    show Int.toNat 8 = 8 from rfl, List.getD]

/-- C2, counterexample.  Invoked with zero completed trials the
statistics calculator does not fail with any `EmptyResultSet`-like
signal: the mean, standard deviation and confidence interval all
evaluate to NaN (numpy only emits runtime warnings), and the percentile
of an empty array is undefined (current numpy raises a generic
`IndexError`, older versions return NaN) — so the caller receives
silently-undefined values, exactly what the claim rules out. -/
theorem c2_counterexample :
    (calculate_statistics z975 [] []).mean_accuracy = none ∧
    (calculate_statistics z975 [] []).std_accuracy = none ∧
    (calculate_statistics z975 [] []).ci_95 = none ∧
    (calculate_statistics z975 [] []).percentile_99_response = none :=
  ⟨rfl, rfl, rfl, rfl⟩

/-- C2, amended.  On k = 0 the calculator raises no distinguishable
EmptyResultSet error (no such error kind exists in the code): every
statistic it computes is NaN/undefined, for any quantile constant z. -/
theorem c2_empty_stats (z : ℝ) :
    (calculate_statistics z [] []).mean_accuracy = none ∧
    (calculate_statistics z [] []).std_accuracy = none ∧
    (calculate_statistics z [] []).ci_95 = none ∧
    (calculate_statistics z [] []).percentile_99_response = none :=
  ⟨rfl, rfl, rfl, rfl⟩

/-- A sum of squared deviations is nonnegative. -/
lemma sqSum_nonneg (l : List ℚ) (c : ℚ) : 0 ≤ (l.map fun x => (x - c) ^ 2).sum := by
  apply List.sum_nonneg
  intro a ha
  simp only [List.mem_map] at ha
  obtain ⟨x, _, rfl⟩ := ha
  positivity

/-- The sample-standard-error scale scipy computes equals the population
standard deviation divided by `sqrt (k - 1)` (not by `sqrt k`): with `S`
the sum of squared deviations, `sqrt (S/(k-1)) / sqrt k = sqrt (S/k) /
sqrt (k-1)`. -/
lemma sem_to_popstd (S : ℚ) (k : ℕ) (hS : 0 ≤ S) :
    Real.sqrt ((S / ((k : ℚ) - 1) : ℚ) : ℝ) / Real.sqrt (k : ℝ)
      = Real.sqrt ((S / (k : ℚ) : ℚ) : ℝ) / Real.sqrt ((k : ℝ) - 1) := by
  have hS' : (0 : ℝ) ≤ (S : ℝ) := by exact_mod_cast hS
  have c1 : ((S / ((k : ℚ) - 1) : ℚ) : ℝ) = (S : ℝ) / ((k : ℝ) - 1) := by push_cast; ring
  have c2 : ((S / (k : ℚ) : ℚ) : ℝ) = (S : ℝ) / (k : ℝ) := by push_cast; ring
  rw [c1, c2, Real.sqrt_div hS', Real.sqrt_div hS']
  ring

/-- C1, amended.  For k ≥ 2 the confidence interval the code returns is
`mean ± z * scale` with `scale = stats.sem = (sample std)/sqrt(k)`, which
equals the population standard deviation `sqrt v` divided by
`sqrt (k - 1)` — not by `sqrt k` as the claim states (scipy's `sem`
defaults to the `ddof = 1` sample standard deviation). -/
theorem c1_ci_formula (z : ℝ) (acc rt : List ℚ) (h : 2 ≤ acc.length) :
    ∃ m v, npMean acc = some m ∧ npVar acc = some v ∧
      (calculate_statistics z acc rt).ci_95 =
        some ((m : ℝ) - z * (Real.sqrt (v : ℝ) / Real.sqrt ((acc.length : ℝ) - 1)),
              (m : ℝ) + z * (Real.sqrt (v : ℝ) / Real.sqrt ((acc.length : ℝ) - 1))) := by
  have hne : acc ≠ [] := by
    intro h0
    rw [h0] at h
    simp at h
  refine ⟨acc.sum / acc.length,
    (acc.map fun x => (x - acc.sum / acc.length) ^ 2).sum / acc.length, ?_, ?_, ?_⟩
  · rw [npMean, if_neg hne]
  · rw [npVar, if_neg hne]
  · have hm : npMean acc = some (acc.sum / acc.length) := by rw [npMean, if_neg hne]
    have hsv : sampleVar acc =
        some ((acc.map fun x => (x - acc.sum / acc.length) ^ 2).sum /
          ((acc.length : ℚ) - 1)) := by
      rw [sampleVar, if_neg (by omega)]
    have hsem : sem acc =
        some (Real.sqrt (((acc.map fun x => (x - acc.sum / acc.length) ^ 2).sum /
            ((acc.length : ℚ) - 1) : ℚ) : ℝ) / Real.sqrt (acc.length : ℝ)) := by
      rw [sem, hsv, Option.map_some']
    have hproj : (calculate_statistics z acc rt).ci_95 =
        (match npMean acc, sem acc with
         | some m, some s => some (norm_interval z (m : ℝ) s)
         | _, _ => none) := rfl
    rw [hproj, hm, hsem]
    simp only [norm_interval]
    rw [sem_to_popstd _ acc.length (sqSum_nonneg acc _)]

/-- C1, witness: the amended interval formula instantiated at
`z = 1.959964` and the two-element accuracy list `[0, 2]`. -/
theorem c1_ci_formula_witness :
    2 ≤ ([0, 2] : List ℚ).length ∧
    ∃ m v, npMean [0, 2] = some m ∧ npVar [0, 2] = some v ∧
      (calculate_statistics z975 [0, 2] []).ci_95 =
        some ((m : ℝ) - z975 * (Real.sqrt (v : ℝ) /
                Real.sqrt ((([0, 2] : List ℚ).length : ℝ) - 1)),
              (m : ℝ) + z975 * (Real.sqrt (v : ℝ) /
                Real.sqrt ((([0, 2] : List ℚ).length : ℝ) - 1))) :=
  ⟨by norm_num, c1_ci_formula z975 [0, 2] [] (by norm_num)⟩

/-- C1, counterexample.  On the accuracy values `[0, 2]` (k = 2,
population standard deviation 1, mean 1) the code's interval at
`z = 1.959964` is `1 ± z` (because `stats.sem` is the sample standard
deviation `sqrt 2` over `sqrt 2`, i.e. 1), not the claimed
`1 ± z * stdAccuracy / sqrt k = 1 ± z / sqrt 2`. -/
theorem c1_counterexample :
    npMean [0, 2] = some 1 ∧ npStd [0, 2] = some 1 ∧
    (calculate_statistics z975 [0, 2] [1]).ci_95 ≠
      some ((1 : ℝ) - z975 * ((1 : ℝ) / Real.sqrt 2),
            (1 : ℝ) + z975 * ((1 : ℝ) / Real.sqrt 2)) := by
  have hmean : npMean [0, 2] = some 1 := by
    rw [npMean, if_neg (by simp)]
    norm_num
  have hvar : npVar [0, 2] = some 1 := by
    rw [npVar, if_neg (by simp)]
    norm_num
  have hstd : npStd [0, 2] = some 1 := by
    rw [npStd, hvar, Option.map_some']
    norm_num [Real.sqrt_one]
  have hsv : sampleVar [0, 2] = some 2 := by
    rw [sampleVar, if_neg (by norm_num)]
    norm_num
  have hs2 : Real.sqrt 2 ≠ 0 := ne_of_gt (Real.sqrt_pos.mpr (by norm_num))
  have hsem : sem [0, 2] = some 1 := by
    rw [sem, hsv, Option.map_some']
    norm_num
  have hproj : (calculate_statistics z975 [0, 2] [1]).ci_95 =
      (match npMean [0, 2], sem [0, 2] with
       | some m, some s => some (norm_interval z975 (m : ℝ) s)
       | _, _ => none) := rfl
  have hci : (calculate_statistics z975 [0, 2] [1]).ci_95 =
      some ((1 : ℝ) - z975 * 1, (1 : ℝ) + z975 * 1) := by
    rw [hproj, hmean, hsem]
    simp only [norm_interval]
    norm_num
  refine ⟨hmean, hstd, ?_⟩
  rw [hci]
  intro heq
  rw [Option.some_inj, Prod.mk.injEq] at heq
  obtain ⟨h1, _⟩ := heq
  have hz : (0 : ℝ) < z975 := by rw [z975]; norm_num
  have hgt : (1 : ℝ) < Real.sqrt 2 := by
    have := Real.sqrt_lt_sqrt (by norm_num : (0:ℝ) ≤ 1) (by norm_num : (1:ℝ) < 2)
    rwa [Real.sqrt_one] at this
  have h4 : z975 * 1 = z975 * ((1 : ℝ) / Real.sqrt 2) := by linarith
  have h5 : (1 : ℝ) = 1 / Real.sqrt 2 := mul_left_cancel₀ (ne_of_gt hz) h4
  have h6 : Real.sqrt 2 = 1 := by
    field_simp at h5
  linarith

/-- A reported variance is nonnegative. -/
lemma npVar_nonneg {l : List ℚ} {v : ℚ} (h : npVar l = some v) : 0 ≤ v := by
  rw [npVar] at h
  by_cases hl : l = []
  · rw [if_pos hl] at h
    cases h
  · rw [if_neg hl] at h
    injection h with h
    rw [← h]
    exact div_nonneg (sqSum_nonneg l _) (Nat.cast_nonneg _)

/-- If the symptom-clarity factor is constant, its correlation with
accuracy is NaN, whatever the other lists are. -/
lemma ncorr_none_left {x y : List ℚ} (h : npVar x = some 0) : ncorr x y = none := by
  rw [ncorr, h]
  cases hv : npVar y <;> simp

/-- If the accuracy values are constant, every correlation with them is
NaN, whatever the other list is. -/
lemma ncorr_none_right {x y : List ℚ} (h : npVar y = some 0) : ncorr x y = none := by
  rw [ncorr, h]
  cases hv : npVar x <;> simp

/-- One NaN correlation — in any of the four slots — poisons the
normalizing total and with it all four reported contributions. -/
lemma sens_all_nan {dcL scL wvL rtL accL : List ℚ}
    (h : ncorr dcL accL = none ∨ ncorr scL accL = none ∨
      ncorr wvL accL = none ∨ ncorr rtL accL = none) :
    sensitivity_analysis dcL scL wvL rtL accL = ⟨none, none, none, none⟩ := by
  rcases h with h | h | h | h
  · cases h2 : ncorr scL accL <;> cases h3 : ncorr wvL accL <;>
      cases h4 : ncorr rtL accL <;>
        simp [sensitivity_analysis, h, h2, h3, h4]
  · cases h1 : ncorr dcL accL <;> cases h3 : ncorr wvL accL <;>
      cases h4 : ncorr rtL accL <;>
        simp [sensitivity_analysis, h1, h, h3, h4]
  · cases h1 : ncorr dcL accL <;> cases h2 : ncorr scL accL <;>
      cases h4 : ncorr rtL accL <;>
        simp [sensitivity_analysis, h1, h2, h, h4]
  · cases h1 : ncorr dcL accL <;> cases h2 : ncorr scL accL <;>
      cases h3 : ncorr wvL accL <;>
        simp [sensitivity_analysis, h1, h2, h3, h]

/-- Evaluation of `sensitivity_analysis` when all four correlations are
defined and their absolute values have nonzero sum. -/
lemma sens_eval (dcL scL wvL rtL accL : List ℚ) (a1 a2 a3 a4 : ℝ)
    (hr1 : ncorr dcL accL = some a1) (hr2 : ncorr scL accL = some a2)
    (hr3 : ncorr wvL accL = some a3) (hr4 : ncorr rtL accL = some a4)
    (hT : |a1| + |a2| + |a3| + |a4| ≠ 0) :
    sensitivity_analysis dcL scL wvL rtL accL =
      ⟨some (|a1| / (|a1| + |a2| + |a3| + |a4|) * 100),
       some (|a2| / (|a1| + |a2| + |a3| + |a4|) * 100),
       some (|a3| / (|a1| + |a2| + |a3| + |a4|) * 100),
       some (|a4| / (|a1| + |a2| + |a3| + |a4|) * 100)⟩ := by
  simp [sensitivity_analysis, hr1, hr2, hr3, hr4, hT]

/-- C3, amended.  If any one of the four input factors has zero
variance across the ResultSet, its correlation is NaN and — because the
normalizing total is a Python `sum` over all four absolute correlations
— every reported contribution is NaN: nothing is set to 0 and nothing is
renormalized; and since the analyzer also cannot fail, the all-degenerate
case likewise returns an all-NaN mapping, not a DegenerateSensitivity
error. -/
theorem c3_degenerate_nan (dcL scL wvL rtL accL : List ℚ)
    (h : npVar dcL = some 0 ∨ npVar scL = some 0 ∨
      npVar wvL = some 0 ∨ npVar rtL = some 0) :
    sensitivity_analysis dcL scL wvL rtL accL = ⟨none, none, none, none⟩ := by
  rcases h with h | h | h | h
  · exact sens_all_nan (Or.inl (ncorr_none_left h))
  · exact sens_all_nan (Or.inr (Or.inl (ncorr_none_left h)))
  · exact sens_all_nan (Or.inr (Or.inr (Or.inl (ncorr_none_left h))))
  · exact sens_all_nan (Or.inr (Or.inr (Or.inr (ncorr_none_left h))))

/-- C3, witness: a concrete five-list ResultSet of two trials whose
data-completeness column is constant (all other columns vary). -/
theorem c3_degenerate_nan_witness :
    (npVar [3, 3] = some 0 ∨ npVar ([1, 5] : List ℚ) = some 0 ∨
      npVar ([0, 1] : List ℚ) = some 0 ∨ npVar ([0, 2] : List ℚ) = some 0) ∧
    sensitivity_analysis [3, 3] [1, 5] [0, 1] [0, 2] [10, 20] =
      ⟨none, none, none, none⟩ := by
  have h : npVar ([3, 3] : List ℚ) = some 0 := by
    rw [npVar, if_neg (by simp)]
    norm_num
  exact ⟨Or.inl h, c3_degenerate_nan _ _ _ _ _ (Or.inl h)⟩

/-- C3, counterexample.  First report: a two-trial ResultSet whose
symptom-clarity column is constant (partial degeneracy) — the claim
demands contribution 0 for that factor and renormalized values for the
others, but the code reports NaN for all four.  Second report: all four
factor columns constant (full degeneracy) — the claim demands a
DegenerateSensitivity failure, but the code again returns the all-NaN
mapping. -/
theorem c3_counterexample :
    sensitivity_analysis [7 / 10, 9 / 10] [3, 3] [0, 1] [0, 1] [10, 20] =
      ⟨none, none, none, none⟩ ∧
    sensitivity_analysis [7 / 10, 7 / 10] [3, 3] [1, 1] [2, 2] [5, 5] =
      ⟨none, none, none, none⟩ := by
  constructor <;>
    exact sens_all_nan
      (Or.inr (Or.inl (ncorr_none_left (by rw [npVar, if_neg (by simp)]; norm_num))))

/-- C7, amended.  When all four factors and the accuracy values are
non-degenerate (each variance defined and nonzero) and at least one
factor has nonzero covariance with accuracy, the four reported
contributions are defined, nonnegative and sum to exactly 100 (hence
within the claimed 1e-6).  The claim as frozen omits the accuracy
non-degeneracy and nonzero-covariance provisos, and without them it
fails (see the counterexample). -/
theorem c7_contributions_sum
    (dcL scL wvL rtL accL : List ℚ)
    (v1 v2 v3 v4 va c1 c2 c3 c4 : ℚ)
    (h1 : npVar dcL = some v1) (h2 : npVar scL = some v2)
    (h3 : npVar wvL = some v3) (h4 : npVar rtL = some v4)
    (ha : npVar accL = some va)
    (hv1 : v1 ≠ 0) (hv2 : v2 ≠ 0) (hv3 : v3 ≠ 0) (hv4 : v4 ≠ 0) (hva : va ≠ 0)
    (hc1 : npCov dcL accL = some c1) (hc2 : npCov scL accL = some c2)
    (hc3 : npCov wvL accL = some c3) (hc4 : npCov rtL accL = some c4)
    (hnz : ¬(c1 = 0 ∧ c2 = 0 ∧ c3 = 0 ∧ c4 = 0)) :
    ∃ s1 s2 s3 s4 : ℝ,
      sensitivity_analysis dcL scL wvL rtL accL =
        ⟨some s1, some s2, some s3, some s4⟩ ∧
      0 ≤ s1 ∧ 0 ≤ s2 ∧ 0 ≤ s3 ∧ 0 ≤ s4 ∧
      s1 + s2 + s3 + s4 = 100 ∧ |s1 + s2 + s3 + s4 - 100| ≤ 1 / 1000000 := by
  have hva' : (0 : ℝ) < (va : ℝ) :=
    lt_of_le_of_ne (by exact_mod_cast npVar_nonneg ha) (by exact_mod_cast (Ne.symm hva))
  have hv1' : (0 : ℝ) < (v1 : ℝ) :=
    lt_of_le_of_ne (by exact_mod_cast npVar_nonneg h1) (by exact_mod_cast (Ne.symm hv1))
  have hv2' : (0 : ℝ) < (v2 : ℝ) :=
    lt_of_le_of_ne (by exact_mod_cast npVar_nonneg h2) (by exact_mod_cast (Ne.symm hv2))
  have hv3' : (0 : ℝ) < (v3 : ℝ) :=
    lt_of_le_of_ne (by exact_mod_cast npVar_nonneg h3) (by exact_mod_cast (Ne.symm hv3))
  have hv4' : (0 : ℝ) < (v4 : ℝ) :=
    lt_of_le_of_ne (by exact_mod_cast npVar_nonneg h4) (by exact_mod_cast (Ne.symm hv4))
  have hd1 : (0 : ℝ) < Real.sqrt (v1 : ℝ) * Real.sqrt (va : ℝ) :=
    mul_pos (Real.sqrt_pos.mpr hv1') (Real.sqrt_pos.mpr hva')
  have hd2 : (0 : ℝ) < Real.sqrt (v2 : ℝ) * Real.sqrt (va : ℝ) :=
    mul_pos (Real.sqrt_pos.mpr hv2') (Real.sqrt_pos.mpr hva')
  have hd3 : (0 : ℝ) < Real.sqrt (v3 : ℝ) * Real.sqrt (va : ℝ) :=
    mul_pos (Real.sqrt_pos.mpr hv3') (Real.sqrt_pos.mpr hva')
  have hd4 : (0 : ℝ) < Real.sqrt (v4 : ℝ) * Real.sqrt (va : ℝ) :=
    mul_pos (Real.sqrt_pos.mpr hv4') (Real.sqrt_pos.mpr hva')
  have hr1 : ncorr dcL accL =
      some ((c1 : ℝ) / (Real.sqrt (v1 : ℝ) * Real.sqrt (va : ℝ))) := by
    simp only [ncorr, h1, ha]
    rw [if_neg (not_or.mpr ⟨hv1, hva⟩)]
    rw [hc1, Option.map_some']
  have hr2 : ncorr scL accL =
      some ((c2 : ℝ) / (Real.sqrt (v2 : ℝ) * Real.sqrt (va : ℝ))) := by
    simp only [ncorr, h2, ha]
    rw [if_neg (not_or.mpr ⟨hv2, hva⟩)]
    rw [hc2, Option.map_some']
  have hr3 : ncorr wvL accL =
      some ((c3 : ℝ) / (Real.sqrt (v3 : ℝ) * Real.sqrt (va : ℝ))) := by
    simp only [ncorr, h3, ha]
    rw [if_neg (not_or.mpr ⟨hv3, hva⟩)]
    rw [hc3, Option.map_some']
  have hr4 : ncorr rtL accL =
      some ((c4 : ℝ) / (Real.sqrt (v4 : ℝ) * Real.sqrt (va : ℝ))) := by
    simp only [ncorr, h4, ha]
    rw [if_neg (not_or.mpr ⟨hv4, hva⟩)]
    rw [hc4, Option.map_some']
  set a1 : ℝ := (c1 : ℝ) / (Real.sqrt (v1 : ℝ) * Real.sqrt (va : ℝ)) with ha1
  set a2 : ℝ := (c2 : ℝ) / (Real.sqrt (v2 : ℝ) * Real.sqrt (va : ℝ)) with ha2
  set a3 : ℝ := (c3 : ℝ) / (Real.sqrt (v3 : ℝ) * Real.sqrt (va : ℝ)) with ha3
  set a4 : ℝ := (c4 : ℝ) / (Real.sqrt (v4 : ℝ) * Real.sqrt (va : ℝ)) with ha4
  have habs : ∀ b : ℝ, (0 : ℝ) ≤ |b| := fun b => abs_nonneg b
  have hTpos : 0 < |a1| + |a2| + |a3| + |a4| := by
    rcases not_and_or.mp hnz with hne | h234
    · have : a1 ≠ 0 := by
        rw [ha1]
        exact div_ne_zero (by exact_mod_cast hne) (ne_of_gt hd1)
      have : 0 < |a1| := abs_pos.mpr this
      nlinarith [habs a2, habs a3, habs a4]
    rcases not_and_or.mp h234 with hne | h34
    · have : a2 ≠ 0 := by
        rw [ha2]
        exact div_ne_zero (by exact_mod_cast hne) (ne_of_gt hd2)
      have : 0 < |a2| := abs_pos.mpr this
      nlinarith [habs a1, habs a3, habs a4]
    rcases not_and_or.mp h34 with hne | hne
    · have : a3 ≠ 0 := by
        rw [ha3]
        exact div_ne_zero (by exact_mod_cast hne) (ne_of_gt hd3)
      have : 0 < |a3| := abs_pos.mpr this
      nlinarith [habs a1, habs a2, habs a4]
    · have : a4 ≠ 0 := by
        rw [ha4]
        exact div_ne_zero (by exact_mod_cast hne) (ne_of_gt hd4)
      have : 0 < |a4| := abs_pos.mpr this
      nlinarith [habs a1, habs a2, habs a3]
  have hT : |a1| + |a2| + |a3| + |a4| ≠ 0 := ne_of_gt hTpos
  refine ⟨|a1| / (|a1| + |a2| + |a3| + |a4|) * 100,
    |a2| / (|a1| + |a2| + |a3| + |a4|) * 100,
    |a3| / (|a1| + |a2| + |a3| + |a4|) * 100,
    |a4| / (|a1| + |a2| + |a3| + |a4|) * 100,
    sens_eval dcL scL wvL rtL accL a1 a2 a3 a4 hr1 hr2 hr3 hr4 hT, ?_, ?_, ?_, ?_, ?_, ?_⟩
  · positivity
  · positivity
  · positivity
  · positivity
  · field_simp
    ring
  · have hsum : |a1| / (|a1| + |a2| + |a3| + |a4|) * 100 +
        |a2| / (|a1| + |a2| + |a3| + |a4|) * 100 +
        |a3| / (|a1| + |a2| + |a3| + |a4|) * 100 +
        |a4| / (|a1| + |a2| + |a3| + |a4|) * 100 = 100 := by
      field_simp
      ring
    rw [hsum]
    norm_num

/-- C7, witness: a concrete two-trial ResultSet where every factor and
the accuracy vary; the contributions are defined, nonnegative and sum to
100. -/
theorem c7_contributions_sum_witness :
    npVar [7 / 10, 9 / 10] = some (1 / 100) ∧ npVar [1, 5] = some 4 ∧
    npVar [0, 7] = some (49 / 4) ∧ npVar [0, 1] = some (1 / 4) ∧
    npVar [10, 20] = some 25 ∧
    npCov [7 / 10, 9 / 10] [10, 20] = some (1 / 2) ∧
    npCov [1, 5] [10, 20] = some 10 ∧
    npCov [0, 7] [10, 20] = some (35 / 2) ∧
    npCov [0, 1] [10, 20] = some (5 / 2) ∧
    (∃ s1 s2 s3 s4 : ℝ,
      sensitivity_analysis [7 / 10, 9 / 10] [1, 5] [0, 7] [0, 1] [10, 20] =
        ⟨some s1, some s2, some s3, some s4⟩ ∧
      0 ≤ s1 ∧ 0 ≤ s2 ∧ 0 ≤ s3 ∧ 0 ≤ s4 ∧
      s1 + s2 + s3 + s4 = 100 ∧ |s1 + s2 + s3 + s4 - 100| ≤ 1 / 1000000) := by
  have m1 : npMean ([7 / 10, 9 / 10] : List ℚ) = some (4 / 5) := by
    rw [npMean, if_neg (by simp)]; norm_num
  have m2 : npMean ([1, 5] : List ℚ) = some 3 := by
    rw [npMean, if_neg (by simp)]; norm_num
  have m3 : npMean ([0, 7] : List ℚ) = some (7 / 2) := by
    rw [npMean, if_neg (by simp)]; norm_num
  have m4 : npMean ([0, 1] : List ℚ) = some (1 / 2) := by
    rw [npMean, if_neg (by simp)]; norm_num
  have ma : npMean ([10, 20] : List ℚ) = some 15 := by
    rw [npMean, if_neg (by simp)]; norm_num
  have e1 : npVar ([7 / 10, 9 / 10] : List ℚ) = some (1 / 100) := by
    rw [npVar, if_neg (by simp)]; norm_num
  have e2 : npVar ([1, 5] : List ℚ) = some 4 := by
    rw [npVar, if_neg (by simp)]; norm_num
  have e3 : npVar ([0, 7] : List ℚ) = some (49 / 4) := by
    rw [npVar, if_neg (by simp)]; norm_num
  have e4 : npVar ([0, 1] : List ℚ) = some (1 / 4) := by
    rw [npVar, if_neg (by simp)]; norm_num
  have e5 : npVar ([10, 20] : List ℚ) = some 25 := by
    rw [npVar, if_neg (by simp)]; norm_num
  have f1 : npCov [7 / 10, 9 / 10] [10, 20] = some (1 / 2) := by
    simp only [npCov, m1, ma]; norm_num
  have f2 : npCov [1, 5] [10, 20] = some 10 := by
    simp only [npCov, m2, ma]; norm_num
  have f3 : npCov [0, 7] [10, 20] = some (35 / 2) := by
    simp only [npCov, m3, ma]; norm_num
  have f4 : npCov [0, 1] [10, 20] = some (5 / 2) := by
    simp only [npCov, m4, ma]; norm_num
  exact ⟨e1, e2, e3, e4, e5, f1, f2, f3, f4,
    c7_contributions_sum _ _ _ _ _ _ _ _ _ _ _ _ _ _ e1 e2 e3 e4 e5
      (by norm_num) (by norm_num) (by norm_num) (by norm_num) (by norm_num)
      f1 f2 f3 f4 (by norm_num)⟩

/-- C7, counterexample.  A two-trial ResultSet in which every input
factor varies (no factor is degenerate) but the two accuracy values —
both produced by the model itself, at different parameter vectors —
coincide at 71.28.  All four correlations are then 0/0 = NaN and the
code reports NaN for every contribution, which neither is nonnegative
nor sums to 100, refuting the claim as frozen. -/
theorem c7_counterexample :
    npVar [4 / 5, 1] = some (1 / 100) ∧ npVar [5, 4] = some (1 / 4) ∧
    npVar [1, 0] = some (1 / 4) ∧ npVar [0, 1 / 10] = some (1 / 400) ∧
    accuracy_pct (4 / 5) 5 1 0 = 1782 / 25 ∧
    accuracy_pct 1 4 0 (1 / 10) = 1782 / 25 ∧
    sensitivity_analysis [4 / 5, 1] [5, 4] [1, 0] [0, 1 / 10]
      [1782 / 25, 1782 / 25] = ⟨none, none, none, none⟩ := by
  refine ⟨?_, ?_, ?_, ?_, ?_, ?_, ?_⟩
  · rw [npVar, if_neg (by simp)]; norm_num
  · rw [npVar, if_neg (by simp)]; norm_num
  · rw [npVar, if_neg (by simp)]; norm_num
  · rw [npVar, if_neg (by simp)]; norm_num
  · norm_num [accuracy_pct, accuracy, penalty, min_def]
  · norm_num [accuracy_pct, accuracy, penalty, min_def]
  · exact sens_all_nan
      (Or.inl (ncorr_none_right (by rw [npVar, if_neg (by simp)]; norm_num)))

/-- C4, amended.  The simulation owns no seed: its output is a function
of the segment of the global random stream it consumes.  Two runs whose
consumed segments coincide value-for-value produce identical result
lists; but the method's interface exposes no way to fix that segment —
the cursor advances with every draw the process makes. -/
theorem c4_determinism (g h : ℕ → Draw) (c d : ℕ) (s : SimState)
    (hgh : ∀ i, i < s.n_iterations → g (c + i) = h (d + i)) :
    (simulate_diagnostic_accuracy g c s).1 = (simulate_diagnostic_accuracy h d s).1 := by
  have e : ∀ i : Fin s.n_iterations, g (c + i) = h (d + i) := fun i => hgh i i.isLt
  simp only [simulate_diagnostic_accuracy]
  congr 1 <;> exact congrArg _ (congrArg List.ofFn (funext fun i => by rw [e i]))

/-- C4, witness: two runs from identically-valued stream segments (a
constant stream read at cursors 0 and 5) produce identical states. -/
theorem c4_determinism_witness :
    (∀ i, i < CDSS_init.n_iterations →
      (fun _ : ℕ => Draw.mk (4 / 5) 5 0 0) (0 + i) =
        (fun _ : ℕ => Draw.mk (4 / 5) 5 0 0) (5 + i)) ∧
    (simulate_diagnostic_accuracy (fun _ : ℕ => Draw.mk (4 / 5) 5 0 0) 0 CDSS_init).1 =
      (simulate_diagnostic_accuracy (fun _ : ℕ => Draw.mk (4 / 5) 5 0 0) 5 CDSS_init).1 :=
  ⟨fun _ _ => rfl,
   c4_determinism (fun _ => Draw.mk (4 / 5) 5 0 0) (fun _ => Draw.mk (4 / 5) 5 0 0)
     0 5 CDSS_init (fun _ _ => rfl)⟩

/-- First stored accuracy of a run started on a fresh analysis object:
the model applied to the draw at the run's starting cursor. -/
lemma simulate_acc0 (g : ℕ → Draw) (c : ℕ) (s : SimState)
    (hn : 0 < s.n_iterations) (hacc : s.accuracy = []) :
    (simulate_diagnostic_accuracy g c s).1.accuracy[0]? =
      some (accuracy_pct (g c).dc (g c).sc (g c).wv (g c).rt) := by
  simp only [simulate_diagnostic_accuracy, hacc, List.nil_append]
  rw [List.getElem?_ofFn]
  simp only [List.ofFnNthVal]
  rw [dif_pos hn]
  simp

/-- C4, counterexample.  There is no seed to pass: the method reads the
process-global stream at its current cursor.  Two identically
constructed analyses run back-to-back (the second starting at the
cursor where the first stopped, which is what the global numpy generator
does) receive different draws and produce different accuracy lists —
already their first trials differ (72 vs 90). -/
theorem c4_counterexample :
    (simulate_diagnostic_accuracy gdemo 0 CDSS_init).2 = 10000 ∧
    (simulate_diagnostic_accuracy gdemo 0 CDSS_init).1.accuracy ≠
      (simulate_diagnostic_accuracy gdemo
        (simulate_diagnostic_accuracy gdemo 0 CDSS_init).2 CDSS_init).1.accuracy := by
  refine ⟨rfl, ?_⟩
  have hn : 0 < CDSS_init.n_iterations := by simp [CDSS_init]
  have h1 := simulate_acc0 gdemo 0 CDSS_init hn rfl
  have h2 := simulate_acc0 gdemo (simulate_diagnostic_accuracy gdemo 0 CDSS_init).2
    CDSS_init hn rfl
  intro hEq
  rw [hEq, h2] at h1
  rw [show (simulate_diagnostic_accuracy gdemo 0 CDSS_init).2 = 10000 from rfl,
    show gdemo 10000 = ⟨1, 5, 0, 0⟩ by norm_num [gdemo],
    show gdemo 0 = ⟨4 / 5, 5, 0, 0⟩ by norm_num [gdemo]] at h1
  rw [Option.some_inj] at h1
  norm_num [accuracy_pct, accuracy, penalty, min_def] at h1

/-- The trial count attribute is never mutated: it stays 10000 through
any number of simulate calls. -/
lemma runsFrom_n_iterations (g : ℕ → Draw) (m : ℕ) :
    (runsFrom g m).1.n_iterations = 10000 := by
  induction m with
  | zero => rfl
  | succ m ih =>
    simp only [runsFrom, simulate_diagnostic_accuracy]
    exact ih

/-- C10.  After m simulate calls on one analysis object every one of the
five result lists has length m * 10000 (in particular all five always
have equal length), and the next call appends exactly one 10000-entry
batch to the accuracy list, so later statistics aggregate over the
combined trials of all calls, not only the latest run. -/
theorem c10_accumulation (g : ℕ → Draw) (m : ℕ) :
    ((runsFrom g m).1.accuracy.length = m * 10000 ∧
     (runsFrom g m).1.response_time.length = m * 10000 ∧
     (runsFrom g m).1.data_completeness.length = m * 10000 ∧
     (runsFrom g m).1.symptom_clarity.length = m * 10000 ∧
     (runsFrom g m).1.workflow_variation.length = m * 10000) ∧
    ∃ batch : List ℚ, batch.length = 10000 ∧
      (runsFrom g (m + 1)).1.accuracy = (runsFrom g m).1.accuracy ++ batch := by
  constructor
  · induction m with
    | zero => exact ⟨rfl, rfl, rfl, rfl, rfl⟩
    | succ m ih =>
      obtain ⟨i1, i2, i3, i4, i5⟩ := ih
      have hn := runsFrom_n_iterations g m
      simp only [runsFrom, simulate_diagnostic_accuracy, List.length_append,
        List.length_ofFn, hn, i1, i2, i3, i4, i5]
      omega
  · refine ⟨List.ofFn fun i : Fin (runsFrom g m).1.n_iterations =>
      accuracy_pct (g ((runsFrom g m).2 + i)).dc (g ((runsFrom g m).2 + i)).sc
        (g ((runsFrom g m).2 + i)).wv (g ((runsFrom g m).2 + i)).rt, ?_, rfl⟩
    rw [List.length_ofFn, runsFrom_n_iterations]
